import Mathlib

/-!
Verification of the auto-purge engine of the `rustpress-plugin-cloudflare`
repository (`src/hooks/mod.rs`), as a shallow embedding in Lean.

The embedding models:
- the data model (`AutoPurgeConfig`, `ContentType`, `EventAction`,
  `ContentChangeEvent`, `AutoPurgeHooks`);
- the pure URL-set computation `collect_urls_to_purge`;
- the effectful `handle_event` as a function producing the ordered trace of
  external calls (audit-log insert, sleep, `purge_all`, `purge_urls`)
  together with the returned `Result`, parameterised by an environment
  `Env` that supplies the outcome of each external call;
- the configuration loader `load_config`, with the database fetch and the
  JSON decoding abstracted as parameters.

Machine strings are Lean `String`s; the Rust standard-library string
operations used by the source (`trim`, `trim_end_matches('/')`,
`split(',')`, `starts_with`, `ends_with`, byte-wise `Ord` used by
`Vec::sort`) are re-implemented here over the character list so that every
definition evaluates inside the kernel.
-/

/-! ### Rust string primitives -/

/-- Lexicographic comparison of character lists by code point, mirroring the
byte-wise `Ord` on Rust `String` used by `Vec::<String>::sort` (identical on
the ASCII data handled by this plugin). -/
def charListLe : List Char → List Char → Bool
  | [], _ => true
  | _ :: _, [] => false
  | a :: as, b :: bs =>
    if a.toNat < b.toNat then true
    else if b.toNat < a.toNat then false
    else charListLe as bs

/-- `String` comparison used to model `Vec::<String>::sort`. -/
def strLe (s t : String) : Bool :=
  charListLe s.data t.data

/-- `strLe` as a relation, for use with `List.insertionSort`. -/
def strLeP (s t : String) : Prop :=
  strLe s t = true

instance : DecidableRel strLeP :=
  fun s t => inferInstanceAs (Decidable (strLe s t = true))

/-- Rust `str::trim_end_matches('/')`: remove every trailing `/`. -/
def trimEndSlashes (s : String) : String :=
  String.mk ((s.data.reverse.dropWhile (· == '/')).reverse)

/-- Rust `str::ends_with('/')`. -/
def endsWithSlash (s : String) : Bool :=
  s.data.getLast? == some '/'

/-- Helper for `splitComma`, working on the character list with an
accumulator for the current field. -/
def splitCommaAux : List Char → List Char → List (List Char)
  | [], acc => [acc.reverse]
  | c :: cs, acc =>
    if c == ',' then acc.reverse :: splitCommaAux cs []
    else splitCommaAux cs (c :: acc)

/-- Rust `str::split(',')`: split on every comma, keeping empty fields. -/
def splitComma (s : String) : List String :=
  (splitCommaAux s.data []).map String.mk

/-- Rust `str::trim`: strip leading and trailing whitespace. -/
def rustTrim (s : String) : String :=
  String.mk (((s.data.dropWhile Char.isWhitespace).reverse.dropWhile
    Char.isWhitespace).reverse)

/-- Rust `str::starts_with("http")`. -/
def startsWithHttp (s : String) : Bool :=
  ("http".data).isPrefixOf s.data

/-! ### Data model (`src/hooks/mod.rs` lines 15-207) -/

/-- `AutoPurgeConfig` (lines 15-43). `purge_delay_ms` is a `u32` in the
source; it is modelled as `Nat` since no arithmetic overflows it. -/
structure AutoPurgeConfig where
  enabled : Bool
  on_post_update : Bool
  on_page_update : Bool
  on_media_change : Bool
  on_theme_change : Bool
  on_menu_update : Bool
  on_widget_update : Bool
  on_settings_change : Bool
  purge_entire_site : Bool
  always_purge_homepage : Bool
  purge_archives : Bool
  custom_purge_urls : Option String
  purge_delay_ms : Nat
deriving DecidableEq

/-- `AutoPurgeConfig::new` (lines 47-63). -/
def AutoPurgeConfig.new : AutoPurgeConfig where
  enabled := true
  on_post_update := true
  on_page_update := true
  on_media_change := true
  on_theme_change := true
  on_menu_update := true
  on_widget_update := true
  on_settings_change := false
  purge_entire_site := false
  always_purge_homepage := true
  purge_archives := true
  custom_purge_urls := none
  purge_delay_ms := 500

/-- `ContentType` (lines 67-83). -/
inductive ContentType where
  | Post
  | Page
  | Media
  | Theme
  | Menu
  | Widget
  | Settings
  | Plugin
  | User
  | Comment
  | Category
  | Tag
  | Custom (s : String)
deriving DecidableEq

/-- `Display for ContentType` (lines 85-103). -/
def ContentType.display : ContentType → String
  | .Post => "post"
  | .Page => "page"
  | .Media => "media"
  | .Theme => "theme"
  | .Menu => "menu"
  | .Widget => "widget"
  | .Settings => "settings"
  | .Plugin => "plugin"
  | .User => "user"
  | .Comment => "comment"
  | .Category => "category"
  | .Tag => "tag"
  | .Custom s => s

/-- `EventAction` (lines 106-116). -/
inductive EventAction where
  | Created
  | Updated
  | Deleted
  | Published
  | Unpublished
  | Trashed
  | Restored
deriving DecidableEq

/-- `ContentChangeEvent` (lines 133-153). The `chrono` timestamp is modelled
as a `Nat`; no logic in the engine inspects it. -/
structure ContentChangeEvent where
  content_type : ContentType
  action : EventAction
  content_id : Option String
  url : Option String
  slug : Option String
  title : Option String
  related_urls : List String
  user_id : Option String
  timestamp : Nat
deriving DecidableEq

/-- `ContentChangeEvent::new` (lines 156-168), with the constructed
timestamp passed explicitly. -/
def ContentChangeEvent.new (ct : ContentType) (act : EventAction)
    (ts : Nat) : ContentChangeEvent where
  content_type := ct
  action := act
  content_id := none
  url := none
  slug := none
  title := none
  related_urls := []
  user_id := none
  timestamp := ts

/-- `AutoPurgeHooks` (lines 202-207). The `PgPool` handle and the `RwLock`
around the config are modelled away: `config` is the snapshot the handler
clones at entry, and `servicesConfigured` records whether
`services: Option<Arc<CloudflareServices>>` is `Some`. -/
structure AutoPurgeHooks where
  servicesConfigured : Bool
  config : AutoPurgeConfig
  site_url : String

/-! ### Policy gate (`handle_event` lines 284-294) -/

/-- The per-content-type gate computed by `handle_event` (lines 284-294):
`Comment`, `Category` and `Tag` reuse `on_post_update`; every other
unlisted variant (including `Plugin`, `User`, `Custom`) is `false`. -/
def should_purge (config : AutoPurgeConfig) : ContentType → Bool
  | .Post => config.on_post_update
  | .Page => config.on_page_update
  | .Media => config.on_media_change
  | .Theme => config.on_theme_change
  | .Menu => config.on_menu_update
  | .Widget => config.on_widget_update
  | .Settings => config.on_settings_change
  | .Comment => config.on_post_update
  | .Category => config.on_post_update
  | .Tag => config.on_post_update
  | _ => false

/-! ### URL set builder (`collect_urls_to_purge`, lines 352-423) -/

/-- Lines 356-363: the event URL and, when it does not already end in `/`,
the same URL with `/` appended. -/
def eventUrlPart (event : ContentChangeEvent) : List String :=
  match event.url with
  | none => []
  | some url => if endsWithSlash url then [url] else [url, url ++ "/"]

/-- Lines 368-372: homepage URLs, guarded by `always_purge_homepage`. -/
def homepagePart (site_url : String) (config : AutoPurgeConfig) :
    List String :=
  if config.always_purge_homepage then [site_url ++ "/", site_url] else []

/-- Lines 374-400: archive-page URLs, guarded by `purge_archives`. -/
def archivesPart (site_url : String) (config : AutoPurgeConfig)
    (event : ContentChangeEvent) : List String :=
  if config.purge_archives then
    match event.content_type with
    | .Post =>
      [site_url ++ "/blog/", site_url ++ "/blog",
       site_url ++ "/posts/", site_url ++ "/posts"]
    | .Category =>
      (site_url ++ "/category/") ::
        (match event.slug with
         | some slug =>
           [site_url ++ "/category/" ++ slug ++ "/",
            site_url ++ "/category/" ++ slug]
         | none => [])
    | .Tag =>
      (site_url ++ "/tag/") ::
        (match event.slug with
         | some slug =>
           [site_url ++ "/tag/" ++ slug ++ "/",
            site_url ++ "/tag/" ++ slug]
         | none => [])
    | _ => []
  else []

/-- Lines 402-414: custom patterns, split on commas, trimmed, empty tokens
skipped; a token starting with `http` passes through, any other token is
appended to the site root. -/
def customUrlsPart (site_url : String) (config : AutoPurgeConfig) :
    List String :=
  match config.custom_purge_urls with
  | none => []
  | some custom =>
    (splitComma custom).filterMap fun p =>
      let p := rustTrim p
      if p = "" then none
      else if startsWithHttp p then some p
      else some (site_url ++ p)

/-- Lines 416-420: sitemap and feed URLs, always appended. -/
def sitemapPart (site_url : String) : List String :=
  [site_url ++ "/sitemap.xml", site_url ++ "/sitemap_index.xml",
   site_url ++ "/feed/", site_url ++ "/rss/"]

/-- `AutoPurgeHooks::collect_urls_to_purge` (lines 352-423): the sections
above concatenated in push order, with the site root first normalized by
`trim_end_matches('/')` (line 354). -/
def collect_urls_to_purge (hooks : AutoPurgeHooks)
    (event : ContentChangeEvent) (config : AutoPurgeConfig) : List String :=
  let site_url := trimEndSlashes hooks.site_url
  eventUrlPart event
    ++ event.related_urls
    ++ homepagePart site_url config
    ++ archivesPart site_url config event
    ++ customUrlsPart site_url config
    ++ sitemapPart site_url

/-! ### Sort, dedup and chunking (`handle_event` lines 331-345) -/

/-- Rust `Vec::dedup`: remove consecutive duplicates. -/
def dedupConsec : List String → List String
  | [] => []
  | a :: rest =>
    match rest with
    | [] => [a]
    | b :: _ => if a = b then dedupConsec rest else a :: dedupConsec rest

/-- Lines 332-333: `urls_to_purge.sort(); urls_to_purge.dedup();`.
`insertionSort` is used for the sort so that the definition evaluates in
the kernel; it sorts with respect to the same total order as the source's
`sort`, which is all later proofs rely on. -/
def rustSortDedup (urls : List String) : List String :=
  dedupConsec (List.insertionSort strLeP urls)

/-- Fuel-driven worker for `chunks30`; the fuel only serves to make the
recursion structural, `chunks30` always supplies enough. -/
def chunks30Fuel : Nat → List String → List (List String)
  | 0, _ => []
  | _, [] => []
  | fuel + 1, l => l.take 30 :: chunks30Fuel fuel (l.drop 30)

/-- Rust `slice::chunks(30)` (line 343): split into consecutive chunks of
30 URLs, the last chunk possibly shorter. -/
def chunks30 (l : List String) : List (List String) :=
  chunks30Fuel l.length l

/-! ### Effect traces and the event handler (`handle_event`, lines 275-349) -/

/-- The `CloudflareError` variants reachable from the auto-purge engine
(`src/error.rs`); the remaining variants of the source enum never occur in
the code under verification and are omitted. -/
inductive CloudflareError where
  | DatabaseError (msg : String)
  | ConfigError (msg : String)
  | NetworkError (msg : String)
  | RateLimitExceeded
deriving DecidableEq

/-- One externally observable call made by `handle_event`, in order:
the audit-log insert of `log_event` (lines 426-443), the `tokio` sleep
(line 315), `cache.purge_all` (line 321) and `cache.purge_urls`
(line 344). -/
inductive GatewayCall where
  | auditWrite (eventType : String)
  | sleepMs (ms : Nat)
  | purgeAll
  | purgeUrls (urls : List String)
deriving DecidableEq

deriving instance DecidableEq for Except

/-- Outcomes of the external calls, supplied by the surroundings: the audit
insert result, the `purge_all` result, and the result of the `i`-th
`purge_urls` call of the invocation. -/
structure Env where
  auditResult : Except CloudflareError Unit
  purgeAllResult : Except CloudflareError Unit
  purgeUrlsResult : Nat → Except CloudflareError Unit

/-- The `event_type` column value written by `log_event` (line 436):
`format!("auto_purge_{}", event.content_type)`. -/
def auditEventType (event : ContentChangeEvent) : String :=
  "auto_purge_" ++ event.content_type.display

/-- The chunk loop of lines 343-345: issue one `purge_urls` call per chunk,
sequentially; `?` propagates the first failure, so later chunks are not
attempted. Returns the calls made and the final result. -/
def dispatchChunks (env : Env) :
    Nat → List (List String) → List GatewayCall × Except CloudflareError Unit
  | _, [] => ([], .ok ())
  | i, c :: rest =>
    match env.purgeUrlsResult i with
    | .ok _ =>
      let r := dispatchChunks env (i + 1) rest
      (.purgeUrls c :: r.1, r.2)
    | .error e => ([.purgeUrls c], .error e)

/-- Lines 313-346: the delay, then either the full purge or the
collect/dedupe/chunk dispatch. Runs only after the audit write succeeded
and the services instance was found. -/
def dispatchPhase (hooks : AutoPurgeHooks) (env : Env)
    (event : ContentChangeEvent) :
    List GatewayCall × Except CloudflareError Unit :=
  let config := hooks.config
  let delayed : List GatewayCall :=
    if config.purge_delay_ms > 0 then [.sleepMs config.purge_delay_ms]
    else []
  if config.purge_entire_site then
    (delayed ++ [.purgeAll],
     match env.purgeAllResult with
     | .ok _ => .ok ()
     | .error e => .error e)
  else
    let urls := collect_urls_to_purge hooks event config
    if urls.isEmpty then (delayed, .ok ())
    else
      let deduped := rustSortDedup urls
      let r := dispatchChunks env 0 (chunks30 deduped)
      (delayed ++ r.1, r.2)

/-- `AutoPurgeHooks::handle_event` (lines 275-349), as a function from the
call environment to the ordered trace of external calls and the returned
result. The serialization of the event inside `log_event` cannot fail for
this data model and is modelled as always succeeding; the insert outcome is
`env.auditResult`. -/
def handle_event (hooks : AutoPurgeHooks) (env : Env)
    (event : ContentChangeEvent) :
    List GatewayCall × Except CloudflareError Unit :=
  let config := hooks.config
  if !config.enabled then ([], .ok ())
  else if !(should_purge config event.content_type) then ([], .ok ())
  else
    match env.auditResult with
    | .error e => ([.auditWrite (auditEventType event)], .error e)
    | .ok _ =>
      if !hooks.servicesConfigured then
        ([.auditWrite (auditEventType event)], .ok ())
      else
        let r := dispatchPhase hooks env event
        (.auditWrite (auditEventType event) :: r.1, r.2)

/-! ### Observers over traces -/

/-- The URL lists of the `purge_urls` calls of a trace, in order. -/
def purgeUrlsCalls (t : List GatewayCall) : List (List String) :=
  t.filterMap fun c =>
    match c with
    | .purgeUrls us => some us
    | _ => none

/-- Number of `purge_all` calls in a trace. -/
def purgeAllCount (t : List GatewayCall) : Nat :=
  (t.filter fun c =>
    match c with
    | .purgeAll => true
    | _ => false).length

/-- Number of audit-log writes in a trace. -/
def auditWriteCount (t : List GatewayCall) : Nat :=
  (t.filter fun c =>
    match c with
    | .auditWrite _ => true
    | _ => false).length

/-- Number of sleeps in a trace. -/
def sleepCount (t : List GatewayCall) : Nat :=
  (t.filter fun c =>
    match c with
    | .sleepMs _ => true
    | _ => false).length

/-! ### Configuration loader (`load_config`, lines 236-251) -/

/-- `AutoPurgeHooks::load_config` (lines 236-251). The database fetch is
abstracted as its result (`Err` row-fetch failure, or an optional row with
an optional `value` column), and `serde_json::from_value` as the `decode`
function over an abstract JSON type `J`. Returns the resulting in-memory
config, starting from `current`. The source's `if let Ok(config) = ...`
keeps `current` when decoding fails. -/
def load_config {J : Type} (fetched : Except String (Option (Option J)))
    (decode : J → Except String AutoPurgeConfig)
    (current : AutoPurgeConfig) : Except CloudflareError AutoPurgeConfig :=
  match fetched with
  | .error e => .error (.DatabaseError e)
  | .ok row =>
    match row with
    | some (some value) =>
      match decode value with
      | .ok config => .ok config
      | .error _ => .ok current
    | _ => .ok current

/-! ### Concrete fixtures for the spec scenarios -/

/-- The hooks instance of Scenario A: site `https://ex.com`, default
configuration, services configured. -/
def hooksA : AutoPurgeHooks where
  servicesConfigured := true
  config := AutoPurgeConfig.new
  site_url := "https://ex.com"

/-- An environment in which every external call succeeds. -/
def envOk : Env where
  auditResult := .ok ()
  purgeAllResult := .ok ()
  purgeUrlsResult := fun _ => .ok ()

/-- The Scenario A event: `Post`/`Published` with
`url = "https://ex.com/p/1"`, no slug, no related URLs. -/
def eventA : ContentChangeEvent :=
  { ContentChangeEvent.new .Post .Published 0 with
      url := some "https://ex.com/p/1" }

/-- The 12 URLs of Scenario A, in the order the spec lists them. -/
def scenarioAUrls : List String :=
  ["https://ex.com/p/1", "https://ex.com/p/1/", "https://ex.com/",
   "https://ex.com", "https://ex.com/blog/", "https://ex.com/blog",
   "https://ex.com/posts/", "https://ex.com/posts",
   "https://ex.com/sitemap.xml", "https://ex.com/sitemap_index.xml",
   "https://ex.com/feed/", "https://ex.com/rss/"]

/-- The Scenario A URLs in the order produced by the sort-dedup step. -/
def scenarioASorted : List String :=
  ["https://ex.com", "https://ex.com/", "https://ex.com/blog",
   "https://ex.com/blog/", "https://ex.com/feed/", "https://ex.com/p/1",
   "https://ex.com/p/1/", "https://ex.com/posts", "https://ex.com/posts/",
   "https://ex.com/rss/", "https://ex.com/sitemap.xml",
   "https://ex.com/sitemap_index.xml"]

/-- A configuration with homepage and archive purging switched off, used to
isolate the event-URL handling. -/
def cfgNoExtras : AutoPurgeConfig :=
  { AutoPurgeConfig.new with
      always_purge_homepage := false
      purge_archives := false }

/-- Hooks with `cfgNoExtras`. -/
def hooksNoExtras : AutoPurgeHooks where
  servicesConfigured := true
  config := cfgNoExtras
  site_url := "https://ex.com"

/-- A post event whose URL already ends with a trailing slash. -/
def eventSlashUrl : ContentChangeEvent :=
  { ContentChangeEvent.new .Post .Published 0 with
      url := some "https://ex.com/p/1/" }

/-- Hooks whose configuration has the master switch off. -/
def hooksOff : AutoPurgeHooks :=
  { hooksA with config := { AutoPurgeConfig.new with enabled := false } }

/-- Hooks with no Cloudflare services instance configured. -/
def hooksNoServ : AutoPurgeHooks :=
  { hooksA with servicesConfigured := false }

/-- A configuration with custom purge URLs, for Scenario D. -/
def cfgD : AutoPurgeConfig :=
  { AutoPurgeConfig.new with
      custom_purge_urls := some " /foo , https://other.com/bar " }

/-- Hooks with `cfgD`. -/
def hooksD : AutoPurgeHooks where
  servicesConfigured := true
  config := cfgD
  site_url := "https://ex.com"

/-- The Scenario B event: Scenario A plus 53 distinct related URLs, for a
deduplicated total of 65 candidate URLs. -/
def eventB : ContentChangeEvent :=
  { eventA with related_urls := (List.range 53).map fun i => "r" ++ Nat.repr i }

/-! ### Order lemmas for the sort comparator -/

theorem charListLe_total :
    ∀ as bs, charListLe as bs = true ∨ charListLe bs as = true := by
  intro as
  induction as with
  | nil => intro bs; left; rfl
  | cons a as ih =>
    intro bs
    cases bs with
    | nil => right; rfl
    | cons b bs =>
      by_cases h1 : a.toNat < b.toNat
      · left; simp [charListLe, h1]
      · by_cases h2 : b.toNat < a.toNat
        · right; simp [charListLe, h2]
        · rcases ih bs with h | h
          · left; simp [charListLe, h1, h2, h]
          · right; simp [charListLe, h1, h2, h]

theorem charListLe_trans :
    ∀ as bs cs, charListLe as bs = true → charListLe bs cs = true →
      charListLe as cs = true := by
  intro as
  induction as with
  | nil => intro bs cs _ _; rfl
  | cons a as ih =>
    intro bs cs hab hbc
    cases bs with
    | nil => simp [charListLe] at hab
    | cons b bs =>
      cases cs with
      | nil => simp [charListLe] at hbc
      | cons c cs =>
        simp only [charListLe] at hab hbc ⊢
        split_ifs at hab hbc ⊢ <;>
          first
          | rfl
          | exact ih _ _ hab hbc
          | (exfalso; omega)

theorem charListLe_antisymm :
    ∀ as bs, charListLe as bs = true → charListLe bs as = true → as = bs := by
  intro as
  induction as with
  | nil =>
    intro bs _ hba
    cases bs with
    | nil => rfl
    | cons b bs => simp [charListLe] at hba
  | cons a as ih =>
    intro bs hab hba
    cases bs with
    | nil => simp [charListLe] at hab
    | cons b bs =>
      simp only [charListLe] at hab hba
      split_ifs at hab hba with h1 h2
      all_goals try (exfalso; omega)
      have hn : a.toNat = b.toNat := by omega
      have hc : a = b := Char.ext (UInt32.ext hn)
      rw [hc, ih bs hab hba]

instance : IsTotal String strLeP :=
  ⟨fun s t => charListLe_total s.data t.data⟩

instance : IsTrans String strLeP :=
  ⟨fun _ _ _ hab hbc => charListLe_trans _ _ _ hab hbc⟩

theorem strLeP_antisymm {s t : String} (hst : strLeP s t) (hts : strLeP t s) :
    s = t :=
  String.ext (charListLe_antisymm _ _ hst hts)

/-! ### Dedup and sort lemmas -/

theorem mem_dedupConsec : ∀ {l : List String} {x : String},
    x ∈ dedupConsec l → x ∈ l := by
  intro l
  induction l with
  | nil => intro x h; simp [dedupConsec] at h
  | cons a rest ih =>
    intro x h
    cases rest with
    | nil => simpa [dedupConsec] using h
    | cons b rs =>
      by_cases hab : a = b
      · simp only [dedupConsec, if_pos hab] at h
        exact List.mem_cons_of_mem a (ih h)
      · simp only [dedupConsec, if_neg hab] at h
        rcases List.mem_cons.mp h with h | h
        · exact h ▸ List.mem_cons_self a _
        · exact List.mem_cons_of_mem a (ih h)

theorem dedupConsec_nodup : ∀ {l : List String},
    List.Pairwise strLeP l → (dedupConsec l).Nodup := by
  intro l
  induction l with
  | nil => intro _; simp [dedupConsec]
  | cons a rest ih =>
    intro hp
    rcases List.pairwise_cons.mp hp with ⟨ha, hrest⟩
    cases rest with
    | nil => simp [dedupConsec]
    | cons b rs =>
      by_cases hab : a = b
      · simpa [dedupConsec, if_pos hab] using ih hrest
      · rw [dedupConsec, if_neg hab]
        refine List.nodup_cons.mpr ⟨?_, ih hrest⟩
        intro hmem
        have hin : a ∈ b :: rs := mem_dedupConsec hmem
        rcases List.mem_cons.mp hin with h | h
        · exact hab h
        · rcases List.pairwise_cons.mp hrest with ⟨hb, _⟩
          exact hab (strLeP_antisymm (ha b (List.mem_cons_self b rs)) (hb a h))

theorem rustSortDedup_nodup (l : List String) : (rustSortDedup l).Nodup :=
  dedupConsec_nodup (List.sorted_insertionSort strLeP l)

theorem mem_rustSortDedup {l : List String} {x : String}
    (h : x ∈ rustSortDedup l) : x ∈ l :=
  (List.mem_insertionSort strLeP).mp (mem_dedupConsec h)

/-! ### Chunking lemmas -/

theorem chunks30Fuel_nil : ∀ fuel, chunks30Fuel fuel [] = [] := by
  intro fuel; cases fuel <;> rfl

theorem chunks30Fuel_cons_eq (fuel : Nat) (l : List String) (h : l ≠ []) :
    chunks30Fuel (fuel + 1) l = l.take 30 :: chunks30Fuel fuel (l.drop 30) := by
  cases l with
  | nil => exact absurd rfl h
  | cons a as => rfl

theorem mem_chunks30Fuel : ∀ (fuel : Nat) (l : List String) (c : List String),
    c ∈ chunks30Fuel fuel l → c.Sublist l ∧ c.length ≤ 30 := by
  intro fuel
  induction fuel with
  | zero => intro l c h; simp [chunks30Fuel] at h
  | succ fuel ih =>
    intro l c h
    cases l with
    | nil => simp [chunks30Fuel] at h
    | cons a as =>
      rw [chunks30Fuel_cons_eq fuel _ (by simp)] at h
      rcases List.mem_cons.mp h with h | h
      · subst h
        exact ⟨List.take_sublist 30 _, List.length_take_le 30 _⟩
      · rcases ih _ _ h with ⟨hsub, hlen⟩
        exact ⟨hsub.trans (List.drop_sublist 30 _), hlen⟩

theorem mem_chunks30 {l c : List String} (h : c ∈ chunks30 l) :
    c.Sublist l ∧ c.length ≤ 30 :=
  mem_chunks30Fuel l.length l c h

theorem chunks30_length_65 {l : List String} (h : l.length = 65) :
    (chunks30 l).map List.length = [30, 30, 5] := by
  have h0 : l ≠ [] := by
    intro hl; rw [hl] at h; simp at h
  have h1 : (l.drop 30).length = 35 := by
    simp [List.length_drop, h]
  have h2 : ((l.drop 30).drop 30).length = 5 := by
    simp [List.length_drop, h]
  have h1n : l.drop 30 ≠ [] := by
    intro hl; rw [hl] at h1; simp at h1
  have h2n : (l.drop 30).drop 30 ≠ [] := by
    intro hl; rw [hl] at h2; simp at h2
  have h3 : (((l.drop 30).drop 30).drop 30) = [] := by
    apply List.eq_nil_of_length_eq_zero
    simp [List.length_drop, h]
  rw [chunks30, h]
  rw [show (65 : Nat) = 64 + 1 from rfl, chunks30Fuel_cons_eq _ _ h0]
  rw [show (64 : Nat) = 63 + 1 from rfl, chunks30Fuel_cons_eq _ _ h1n]
  rw [show (63 : Nat) = 62 + 1 from rfl, chunks30Fuel_cons_eq _ _ h2n]
  rw [h3, chunks30Fuel_nil]
  simp [List.length_take, h, h1, h2]

/-! ### Trace lemmas -/

theorem purgeUrlsCalls_append (s t : List GatewayCall) :
    purgeUrlsCalls (s ++ t) = purgeUrlsCalls s ++ purgeUrlsCalls t := by
  simp [purgeUrlsCalls, List.filterMap_append]

theorem auditWriteCount_append (s t : List GatewayCall) :
    auditWriteCount (s ++ t) = auditWriteCount s + auditWriteCount t := by
  simp [auditWriteCount, List.filter_append]

theorem mem_purgeUrlsCalls_dispatchChunks :
    ∀ (cs : List (List String)) (env : Env) (i : Nat) (us : List String),
      us ∈ purgeUrlsCalls (dispatchChunks env i cs).1 → us ∈ cs := by
  intro cs
  induction cs with
  | nil => intro env i us h; simp [dispatchChunks, purgeUrlsCalls] at h
  | cons c rest ih =>
    intro env i us h
    rw [dispatchChunks] at h
    cases hres : env.purgeUrlsResult i with
    | ok u =>
      rw [hres] at h
      simp only [purgeUrlsCalls, List.filterMap_cons] at h
      rcases List.mem_cons.mp h with h | h
      · exact h ▸ List.mem_cons_self c rest
      · exact List.mem_cons_of_mem c (ih env (i + 1) us h)
    | error e =>
      rw [hres] at h
      simp only [purgeUrlsCalls, List.filterMap_cons, List.filterMap_nil] at h
      rcases List.mem_cons.mp h with h | h
      · exact h ▸ List.mem_cons_self c rest
      · simp at h

theorem auditWriteCount_dispatchChunks :
    ∀ (cs : List (List String)) (env : Env) (i : Nat),
      auditWriteCount (dispatchChunks env i cs).1 = 0 := by
  intro cs
  induction cs with
  | nil => intro env i; rfl
  | cons c rest ih =>
    intro env i
    rw [dispatchChunks]
    cases hres : env.purgeUrlsResult i with
    | ok u => simp [auditWriteCount] at ih ⊢; exact ih env (i + 1)
    | error e => rfl

theorem auditWriteCount_dispatchPhase (hooks : AutoPurgeHooks) (env : Env)
    (event : ContentChangeEvent) :
    auditWriteCount (dispatchPhase hooks env event).1 = 0 := by
  simp only [dispatchPhase]
  split
  · dsimp only
    rw [auditWriteCount_append]
    split <;> simp [auditWriteCount]
  · split
    · dsimp only
      split <;> simp [auditWriteCount]
    · dsimp only
      rw [auditWriteCount_append, auditWriteCount_dispatchChunks]
      split <;> simp [auditWriteCount]

/-! ### Further dispatch-phase lemmas -/

theorem purgeUrlsCalls_dispatchPhase_entire (hooks : AutoPurgeHooks)
    (env : Env) (event : ContentChangeEvent)
    (hsite : hooks.config.purge_entire_site = true) :
    purgeUrlsCalls (dispatchPhase hooks env event).1 = [] := by
  simp only [dispatchPhase, hsite, if_true]
  rw [purgeUrlsCalls_append]
  split <;> simp [purgeUrlsCalls]

theorem purgeAllCount_dispatchPhase_entire (hooks : AutoPurgeHooks)
    (env : Env) (event : ContentChangeEvent)
    (hsite : hooks.config.purge_entire_site = true) :
    purgeAllCount (dispatchPhase hooks env event).1 = 1 := by
  simp only [dispatchPhase, hsite, if_true]
  simp only [purgeAllCount, List.filter_append]
  split <;> simp

theorem mem_purgeUrlsCalls_dispatchPhase (hooks : AutoPurgeHooks) (env : Env)
    (event : ContentChangeEvent)
    (hsite : hooks.config.purge_entire_site = false) {us : List String}
    (h : us ∈ purgeUrlsCalls (dispatchPhase hooks env event).1) :
    us ∈ chunks30
      (rustSortDedup (collect_urls_to_purge hooks event hooks.config)) := by
  simp only [dispatchPhase, hsite] at h
  rw [if_neg (by simp)] at h
  split at h
  · exfalso
    revert h
    split <;> simp [purgeUrlsCalls]
  · rw [purgeUrlsCalls_append] at h
    have hdel : ∀ b : Bool, purgeUrlsCalls
        (if b = true then [GatewayCall.sleepMs hooks.config.purge_delay_ms]
         else []) = [] := by
      intro b; cases b <;> simp [purgeUrlsCalls]
    rcases List.mem_append.mp h with h | h
    · revert h
      split <;> simp [purgeUrlsCalls]
    · exact mem_purgeUrlsCalls_dispatchChunks _ env 0 us h

/-! ### Claims -/

/-- C4 counterexample: for the event whose URL is
`https://ex.com/p/1/` (trailing slash), the URL set does not contain the
slash-stripped alternate `https://ex.com/p/1`, contradicting the claim that
the trailing-slash-normalized alternate is always added. -/
theorem claim_C4_counterexample :
    eventSlashUrl.url = some "https://ex.com/p/1/" ∧
    endsWithSlash "https://ex.com/p/1/" = true ∧
    "https://ex.com/p/1" ∉
      collect_urls_to_purge hooksNoExtras eventSlashUrl cfgNoExtras := by
  decide

/-- C4 (amended): for every event with `event.url` present, the URL set
contains the URL exactly as given, and when the URL does not end with `/`
it also contains the URL with `/` appended; no slash-stripped variant is
derived from `event.url`. -/
theorem claim_C4_amended (hooks : AutoPurgeHooks)
    (event : ContentChangeEvent) (config : AutoPurgeConfig) (u : String)
    (hu : event.url = some u) :
    u ∈ collect_urls_to_purge hooks event config ∧
    (endsWithSlash u = false →
      u ++ "/" ∈ collect_urls_to_purge hooks event config) := by
  have hin : ∀ x, x ∈ eventUrlPart event →
      x ∈ collect_urls_to_purge hooks event config := by
    intro x hx
    simp only [collect_urls_to_purge, List.mem_append]
    exact Or.inl (Or.inl (Or.inl (Or.inl (Or.inl hx))))
  constructor
  · apply hin
    rw [eventUrlPart, hu]
    dsimp only
    split <;> simp
  · intro hslash
    apply hin
    rw [eventUrlPart, hu]
    dsimp only
    rw [if_neg (by simp [hslash])]
    simp

/-- C4 witness: the amended theorem applied to Scenario A's event. -/
theorem claim_C4_witness :
    "https://ex.com/p/1" ∈
      collect_urls_to_purge hooksA eventA AutoPurgeConfig.new ∧
    "https://ex.com/p/1" ++ "/" ∈
      collect_urls_to_purge hooksA eventA AutoPurgeConfig.new := by
  have h := claim_C4_amended hooksA eventA AutoPurgeConfig.new
    "https://ex.com/p/1" rfl
  exact ⟨h.1, h.2 (by decide)⟩

/-- C5: whenever the master switch is off, or the per-content-type flag
(with `Post`, `Comment`, `Category`, `Tag` mapping to `on_post_update`,
`Page` to `on_page_update`, `Media` to `on_media_change`, `Theme` to
`on_theme_change`, `Menu` to `on_menu_update`, `Widget` to
`on_widget_update`, `Settings` to `on_settings_change`, and every other
variant to `false`) is off, `handle_event` returns success with an empty
call trace: no audit-log write, no sleep, and no gateway call. -/
theorem claim_C5_gate_noop (hooks : AutoPurgeHooks) (env : Env)
    (event : ContentChangeEvent)
    (h : hooks.config.enabled = false ∨
      (match event.content_type with
       | .Post => hooks.config.on_post_update
       | .Page => hooks.config.on_page_update
       | .Media => hooks.config.on_media_change
       | .Theme => hooks.config.on_theme_change
       | .Menu => hooks.config.on_menu_update
       | .Widget => hooks.config.on_widget_update
       | .Settings => hooks.config.on_settings_change
       | .Comment => hooks.config.on_post_update
       | .Category => hooks.config.on_post_update
       | .Tag => hooks.config.on_post_update
       | _ => false) = false) :
    handle_event hooks env event = ([], .ok ()) := by
  have hsp : hooks.config.enabled = false ∨
      should_purge hooks.config event.content_type = false := by
    rcases h with h | h
    · exact Or.inl h
    · right
      revert h
      cases event.content_type <;> intro h <;> simp only [should_purge] <;>
        exact h
  rw [handle_event]
  rcases hsp with h | h
  · simp [h]
  · cases he : hooks.config.enabled <;> simp [he, h]

/-- C5 witness: the theorem applied to a disabled configuration. -/
theorem claim_C5_witness : handle_event hooksOff envOk eventA = ([], .ok ()) :=
  claim_C5_gate_noop hooksOff envOk eventA (Or.inl rfl)

/-- C9 counterexample: with a stored row whose value fails to decode,
`load_config` returns success with the previous in-memory configuration
unchanged, rather than propagating a `ConfigError` as the claim states. -/
theorem claim_C9_counterexample :
    load_config (J := Unit) (Except.ok (some (some ())))
        (fun _ => Except.error "invalid type: not an AutoPurgeConfig")
        AutoPurgeConfig.new =
      Except.ok AutoPurgeConfig.new := by
  rfl

/-- C9 (amended): for every stored policy record whose value fails to
deserialize, `load_config` swallows the failure: it returns success and
leaves the in-memory policy unchanged. -/
theorem claim_C9_amended {J : Type} (value : J)
    (decode : J → Except String AutoPurgeConfig) (current : AutoPurgeConfig)
    (msg : String) (hdec : decode value = .error msg) :
    load_config (Except.ok (some (some value))) decode current =
      Except.ok current := by
  rw [load_config]
  simp [hdec]

/-- C9 witness: the amended theorem applied to a decoder that always
fails. -/
theorem claim_C9_witness :
    load_config (J := Unit) (Except.ok (some (some ())))
        (fun _ => Except.error "bad") cfgNoExtras =
      Except.ok cfgNoExtras :=
  claim_C9_amended () (fun _ => Except.error "bad") cfgNoExtras "bad" rfl

/-- C10: for an accepted event whose audit write succeeds, when no
services instance is configured, `handle_event` writes the audit record and
returns success: the trace is exactly the audit write — no sleep, no
`purge_all`, no `purge_urls` — and the missing gateway is not reported as
an error. -/
theorem claim_C10_no_services (hooks : AutoPurgeHooks) (env : Env)
    (event : ContentChangeEvent)
    (hen : hooks.config.enabled = true)
    (hsp : should_purge hooks.config event.content_type = true)
    (haud : env.auditResult = .ok ())
    (hserv : hooks.servicesConfigured = false) :
    handle_event hooks env event =
      ([.auditWrite (auditEventType event)], .ok ()) := by
  rw [handle_event]
  simp [hen, hsp, haud, hserv]

/-- C10 witness: the theorem applied to Scenario A's event with no services
configured. -/
theorem claim_C10_witness :
    handle_event hooksNoServ envOk eventA =
      ([.auditWrite (auditEventType eventA)], .ok ()) :=
  claim_C10_no_services hooksNoServ envOk eventA rfl rfl rfl rfl

/-! ### Small trace-observer lemmas -/

theorem purgeUrlsCalls_cons_audit (ty : String) (t : List GatewayCall) :
    purgeUrlsCalls (.auditWrite ty :: t) = purgeUrlsCalls t := by
  simp [purgeUrlsCalls]

theorem purgeAllCount_cons_audit (ty : String) (t : List GatewayCall) :
    purgeAllCount (.auditWrite ty :: t) = purgeAllCount t := by
  simp [purgeAllCount]

theorem auditWriteCount_cons_audit (ty : String) (t : List GatewayCall) :
    auditWriteCount (.auditWrite ty :: t) = auditWriteCount t + 1 := by
  simp [auditWriteCount]

theorem handle_event_accepted (hooks : AutoPurgeHooks) (env : Env)
    (event : ContentChangeEvent)
    (hen : hooks.config.enabled = true)
    (hsp : should_purge hooks.config event.content_type = true)
    (haud : env.auditResult = Except.ok ())
    (hserv : hooks.servicesConfigured = true) :
    handle_event hooks env event =
      (.auditWrite (auditEventType event) :: (dispatchPhase hooks env event).1,
       (dispatchPhase hooks env event).2) := by
  rw [handle_event]
  simp [hen, hsp, haud, hserv]

theorem chunks30_eq_65 {l : List String} (h : l.length = 65) :
    chunks30 l =
      [l.take 30, (l.drop 30).take 30, ((l.drop 30).drop 30).take 30] := by
  have h0 : l ≠ [] := by
    intro hl; rw [hl] at h; simp at h
  have h1 : (l.drop 30).length = 35 := by
    simp [List.length_drop, h]
  have h2 : ((l.drop 30).drop 30).length = 5 := by
    simp [List.length_drop, h]
  have h1n : l.drop 30 ≠ [] := by
    intro hl; rw [hl] at h1; simp at h1
  have h2n : (l.drop 30).drop 30 ≠ [] := by
    intro hl; rw [hl] at h2; simp at h2
  have h3 : ((l.drop 30).drop 30).drop 30 = [] := by
    apply List.eq_nil_of_length_eq_zero
    simp [List.length_drop, h]
  rw [chunks30, h]
  rw [show (65 : Nat) = 64 + 1 from rfl, chunks30Fuel_cons_eq _ _ h0]
  rw [show (64 : Nat) = 63 + 1 from rfl, chunks30Fuel_cons_eq _ _ h1n]
  rw [show (63 : Nat) = 62 + 1 from rfl, chunks30Fuel_cons_eq _ _ h2n]
  rw [h3, chunks30Fuel_nil]

/-- C1: for Scenario A (Post/Published, `url=https://ex.com/p/1`, default
policy, site `https://ex.com`), `handle_event` issues exactly one
`purge_urls` call, whose URL list is exactly the 12-element set listed by
the spec (as a permutation of `scenarioAUrls`), with no duplicates and at
most 30 entries, and returns success. -/
theorem claim_C1_scenario_a :
    purgeUrlsCalls (handle_event hooksA envOk eventA).1 = [scenarioASorted] ∧
    scenarioASorted.Perm scenarioAUrls ∧
    scenarioASorted.Nodup ∧
    scenarioASorted.length = 12 ∧
    scenarioASorted.length ≤ 30 ∧
    (handle_event hooksA envOk eventA).2 = Except.ok () := by
  decide

/-- C3: for every accepted event (gate true, audit write ok, services
configured) with `purge_entire_site = true`, `handle_event` issues exactly
one `purge_all` call and no `purge_urls` call, and its outcome is unchanged
under arbitrary replacement of the event's URL, slug and related URLs — the
URL set builder plays no role on this path. -/
theorem claim_C3_entire_site (hooks : AutoPurgeHooks) (env : Env)
    (event : ContentChangeEvent)
    (hen : hooks.config.enabled = true)
    (hsp : should_purge hooks.config event.content_type = true)
    (haud : env.auditResult = Except.ok ())
    (hserv : hooks.servicesConfigured = true)
    (hsite : hooks.config.purge_entire_site = true) :
    purgeAllCount (handle_event hooks env event).1 = 1 ∧
    purgeUrlsCalls (handle_event hooks env event).1 = [] ∧
    (∀ event' : ContentChangeEvent,
      event'.content_type = event.content_type →
      handle_event hooks env event' = handle_event hooks env event) := by
  have hte := handle_event_accepted hooks env event hen hsp haud hserv
  refine ⟨?_, ?_, ?_⟩
  · rw [hte, purgeAllCount_cons_audit,
      purgeAllCount_dispatchPhase_entire hooks env event hsite]
  · rw [hte, purgeUrlsCalls_cons_audit,
      purgeUrlsCalls_dispatchPhase_entire hooks env event hsite]
  · intro ev2 hct
    have hsp' : should_purge hooks.config ev2.content_type = true := by
      rw [hct]; exact hsp
    have hte2 := handle_event_accepted hooks env ev2 hen hsp' haud hserv
    have hdp : ∀ ev : ContentChangeEvent, dispatchPhase hooks env ev =
        ((if hooks.config.purge_delay_ms > 0 then
            [GatewayCall.sleepMs hooks.config.purge_delay_ms]
          else []) ++ [.purgeAll],
         match env.purgeAllResult with
         | .ok _ => .ok ()
         | .error e => .error e) := by
      intro ev
      rw [dispatchPhase]
      simp [hsite]
    rw [hte, hte2, hdp, hdp, auditEventType, auditEventType, hct]

/-- C3 witness: the theorem applied to Scenario A's event under a
purge-entire-site configuration. -/
theorem claim_C3_witness :
    purgeAllCount (handle_event
      ({ hooksA with config :=
          { AutoPurgeConfig.new with purge_entire_site := true } })
      envOk eventA).1 = 1 :=
  (claim_C3_entire_site
    { hooksA with config :=
        { AutoPurgeConfig.new with purge_entire_site := true } }
    envOk eventA rfl rfl rfl rfl rfl).1

/-- C6: for every accepted event dispatched by URL
(`purge_entire_site = false`), every URL list handed to a `purge_urls`
call is duplicate-free and contains at most 30 URLs. -/
theorem claim_C6_chunk_invariants (hooks : AutoPurgeHooks) (env : Env)
    (event : ContentChangeEvent)
    (hen : hooks.config.enabled = true)
    (hsp : should_purge hooks.config event.content_type = true)
    (hsite : hooks.config.purge_entire_site = false) :
    ∀ us ∈ purgeUrlsCalls (handle_event hooks env event).1,
      us.Nodup ∧ us.length ≤ 30 := by
  intro us hmem
  cases haud : env.auditResult with
  | error e =>
    have h : handle_event hooks env event =
        ([.auditWrite (auditEventType event)], .error e) := by
      rw [handle_event]
      simp [hen, hsp, haud]
    rw [h] at hmem
    simp [purgeUrlsCalls] at hmem
  | ok u =>
    cases u
    cases hserv : hooks.servicesConfigured with
    | false =>
      have h : handle_event hooks env event =
          ([.auditWrite (auditEventType event)], .ok ()) := by
        rw [handle_event]
        simp [hen, hsp, haud, hserv]
      rw [h] at hmem
      simp [purgeUrlsCalls] at hmem
    | true =>
      rw [handle_event_accepted hooks env event hen hsp haud hserv,
        purgeUrlsCalls_cons_audit] at hmem
      have hchunk := mem_purgeUrlsCalls_dispatchPhase hooks env event hsite
        hmem
      rcases mem_chunks30 hchunk with ⟨hsub, hlen⟩
      exact ⟨List.Nodup.sublist hsub (rustSortDedup_nodup _), hlen⟩

/-- C6 witness: the theorem applied to Scenario A's single chunk. -/
theorem claim_C6_witness : scenarioASorted.Nodup ∧ scenarioASorted.length ≤ 30 :=
  claim_C6_chunk_invariants hooksA envOk eventA rfl rfl rfl scenarioASorted
    (by decide)

/-- C7: for every accepted event, when the audit insert succeeds the trace
starts with exactly one audit-log record — written before any gateway call —
and when the audit insert fails, `handle_event` returns that error with the
failed audit write as the only attempted call, so no gateway call is
attempted. -/
theorem claim_C7_audit_first (hooks : AutoPurgeHooks) (env : Env)
    (event : ContentChangeEvent)
    (hen : hooks.config.enabled = true)
    (hsp : should_purge hooks.config event.content_type = true) :
    (env.auditResult = Except.ok () →
      (handle_event hooks env event).1.head? =
        some (.auditWrite (auditEventType event)) ∧
      auditWriteCount (handle_event hooks env event).1 = 1) ∧
    (∀ e, env.auditResult = Except.error e →
      handle_event hooks env event =
        ([.auditWrite (auditEventType event)], Except.error e)) := by
  constructor
  · intro haud
    cases hserv : hooks.servicesConfigured with
    | false =>
      have h : handle_event hooks env event =
          ([.auditWrite (auditEventType event)], .ok ()) := by
        rw [handle_event]
        simp [hen, hsp, haud, hserv]
      rw [h]
      exact ⟨rfl, rfl⟩
    | true =>
      rw [handle_event_accepted hooks env event hen hsp haud hserv]
      refine ⟨rfl, ?_⟩
      rw [auditWriteCount_cons_audit,
        auditWriteCount_dispatchPhase hooks env event]
  · intro e haud
    rw [handle_event]
    simp [hen, hsp, haud]

/-- C7 witness: the theorem applied to Scenario A. -/
theorem claim_C7_witness :
    (handle_event hooksA envOk eventA).1.head? =
      some (.auditWrite (auditEventType eventA)) :=
  ((claim_C7_audit_first hooksA envOk eventA rfl rfl).1 rfl).1

/-- C2: for every accepted event dispatched by URL whose deduplicated URL
set has 65 elements, when the `purge_urls` calls succeed `handle_event`
issues exactly three calls of sizes 30, 30, 5 in that order and returns
success; and when the second call fails, exactly two calls (sizes 30, 30)
are attempted — the third never happens — and `handle_event` returns the
second call's error. -/
theorem claim_C2_sixty_five (hooks : AutoPurgeHooks) (env : Env)
    (event : ContentChangeEvent)
    (hen : hooks.config.enabled = true)
    (hsp : should_purge hooks.config event.content_type = true)
    (haud : env.auditResult = Except.ok ())
    (hserv : hooks.servicesConfigured = true)
    (hsite : hooks.config.purge_entire_site = false)
    (hlen : (rustSortDedup
      (collect_urls_to_purge hooks event hooks.config)).length = 65) :
    (env.purgeUrlsResult 0 = Except.ok () →
     env.purgeUrlsResult 1 = Except.ok () →
     env.purgeUrlsResult 2 = Except.ok () →
      (purgeUrlsCalls (handle_event hooks env event).1).map List.length =
        [30, 30, 5] ∧
      (handle_event hooks env event).2 = Except.ok ()) ∧
    (∀ e, env.purgeUrlsResult 0 = Except.ok () →
      env.purgeUrlsResult 1 = Except.error e →
      (purgeUrlsCalls (handle_event hooks env event).1).map List.length =
        [30, 30] ∧
      (handle_event hooks env event).2 = Except.error e) := by
  have hne : (collect_urls_to_purge hooks event hooks.config).isEmpty
      = false := by
    cases hcol : collect_urls_to_purge hooks event hooks.config with
    | nil =>
      rw [hcol] at hlen
      simp [rustSortDedup, List.insertionSort, dedupConsec] at hlen
    | cons a as => rfl
  have hte := handle_event_accepted hooks env event hen hsp haud hserv
  have hdp : dispatchPhase hooks env event =
      ((if hooks.config.purge_delay_ms > 0 then
          [GatewayCall.sleepMs hooks.config.purge_delay_ms]
        else []) ++
        (dispatchChunks env 0 (chunks30 (rustSortDedup
          (collect_urls_to_purge hooks event hooks.config)))).1,
       (dispatchChunks env 0 (chunks30 (rustSortDedup
          (collect_urls_to_purge hooks event hooks.config)))).2) := by
    rw [dispatchPhase]
    simp [hsite, hne]
  have hchunks := chunks30_eq_65 hlen
  have hdel : purgeUrlsCalls
      (if hooks.config.purge_delay_ms > 0 then
        [GatewayCall.sleepMs hooks.config.purge_delay_ms]
      else []) = [] := by
    split <;> simp [purgeUrlsCalls]
  set d := rustSortDedup (collect_urls_to_purge hooks event hooks.config)
    with hd
  have hl1 : (d.take 30).length = 30 := by
    rw [List.length_take, hlen]
    omega
  have hl2 : ((d.drop 30).take 30).length = 30 := by
    rw [List.length_take, List.length_drop, hlen]
    omega
  have hl3 : (((d.drop 30).drop 30).take 30).length = 5 := by
    rw [List.length_take, List.length_drop, List.length_drop, hlen]
    omega
  constructor
  · intro h0 h1 h2
    have hdc : dispatchChunks env 0 (chunks30 d) =
        ([.purgeUrls (d.take 30), .purgeUrls ((d.drop 30).take 30),
          .purgeUrls (((d.drop 30).drop 30).take 30)], .ok ()) := by
      rw [hchunks]
      simp [dispatchChunks, h0, h1, h2]
    rw [hte, hdp, hdc]
    constructor
    · rw [purgeUrlsCalls_cons_audit, purgeUrlsCalls_append, hdel]
      simp only [purgeUrlsCalls, List.filterMap_cons, List.filterMap_nil,
        List.nil_append, List.map_cons, List.map_nil]
      rw [hl1, hl2, hl3]
    · rfl
  · intro e h0 h1
    have hdc : dispatchChunks env 0 (chunks30 d) =
        ([.purgeUrls (d.take 30), .purgeUrls ((d.drop 30).take 30)],
         .error e) := by
      rw [hchunks]
      simp [dispatchChunks, h0, h1]
    rw [hte, hdp, hdc]
    constructor
    · rw [purgeUrlsCalls_cons_audit, purgeUrlsCalls_append, hdel]
      simp only [purgeUrlsCalls, List.filterMap_cons, List.filterMap_nil,
        List.nil_append, List.map_cons, List.map_nil]
      rw [hl1, hl2]
    · rfl

/-- C2 witness: Scenario B — Scenario A plus 53 distinct related URLs — in
the all-success environment produces chunk sizes 30, 30, 5. -/
theorem claim_C2_witness :
    (purgeUrlsCalls (handle_event hooksA envOk eventB).1).map List.length =
      [30, 30, 5] :=
  ((claim_C2_sixty_five hooksA envOk eventB rfl rfl rfl rfl rfl
    (by decide)).1 rfl rfl rfl).1

/-- C8: the custom-URL step splits `custom_purge_urls` on commas, trims
each token, skips empty tokens, passes `http`-prefixed tokens through
unchanged and prefixes the rest with the trailing-slash-stripped site
root. Concretely, Scenario D's `" /foo , https://other.com/bar "`
contributes exactly `https://ex.com/foo` and `https://other.com/bar`, and
in general every nonempty trimmed token lands in the URL set in that
form. -/
theorem claim_C8_custom_urls :
    customUrlsPart "https://ex.com" cfgD =
      ["https://ex.com/foo", "https://other.com/bar"] ∧
    "https://ex.com/foo" ∈ collect_urls_to_purge hooksD eventA cfgD ∧
    "https://other.com/bar" ∈ collect_urls_to_purge hooksD eventA cfgD ∧
    (∀ (hooks : AutoPurgeHooks) (event : ContentChangeEvent)
      (config : AutoPurgeConfig) (s p : String),
      config.custom_purge_urls = some s → p ∈ splitComma s →
      rustTrim p ≠ "" →
      (if startsWithHttp (rustTrim p) then rustTrim p
       else trimEndSlashes hooks.site_url ++ rustTrim p) ∈
        collect_urls_to_purge hooks event config) := by
  refine ⟨by decide, by decide, by decide, ?_⟩
  intro hooks event config s p hcs hp hne
  have hmem : (if startsWithHttp (rustTrim p) then rustTrim p
      else trimEndSlashes hooks.site_url ++ rustTrim p) ∈
      customUrlsPart (trimEndSlashes hooks.site_url) config := by
    rw [customUrlsPart, hcs]
    dsimp only
    apply List.mem_filterMap.mpr
    refine ⟨p, hp, ?_⟩
    rw [if_neg hne]
    split <;> rfl
  simp only [collect_urls_to_purge, List.mem_append]
  exact Or.inl (Or.inr hmem)

/-- C8 witness: the general token rule applied to the `" /foo "` token of
Scenario D. -/
theorem claim_C8_witness :
    (if startsWithHttp (rustTrim " /foo ") then rustTrim " /foo "
     else trimEndSlashes hooksD.site_url ++ rustTrim " /foo ") ∈
      collect_urls_to_purge hooksD eventA cfgD :=
  claim_C8_custom_urls.2.2.2 hooksD eventA cfgD
    " /foo , https://other.com/bar " " /foo " rfl (by decide) (by decide)
